import Mathlib

/-!
Shallow embedding of the synchronization script src/wandb_notino_sync.py.

The script polls wandb for runs, filters them (state finished, id not yet
synced, owner equals the target user), maps each qualifying run to a Notion
property set driven by an ordered header list, and creates one Notion page per
property set.  The external SDK objects are modelled explicitly: wandb
attribute reads may raise (they are lazy, network-backed), Notion page
creation may fail per page, and the destination query returns structured
pages.  Exceptions are modelled with Except / Option values.
-/

set_option autoImplicit false

/-- The exceptions the script distinguishes: its two declared domain errors
(ConfigError, NotionError) plus a catch-all for any other Python exception. -/
inductive PyErr
  | configError (msg : String)
  | notionError (msg : String)
  | otherError (msg : String)
  deriving DecidableEq

/-- A JSON-like scalar stored in a run's config or summary map. -/
inductive JVal
  | num (n : Int)
  | str (s : String)
  deriving DecidableEq

/-- Python str() applied to such a scalar. -/
def pyStr : JVal → String
  | .num n => toString n
  | .str s => s

/-- A wandb Run as the script reads it.  Attribute access on the lazy,
network-backed wandb object can raise, so every attribute-access site in the
script has its own Except-valued field: state, id and user.name as read by the
filter (lines 145-146), and the re-reads of run.id and run.user.name inside
the try block of process_runs (lines 149 and 151).  config and summary are
key/value maps whose per-key value retrieval can itself raise. -/
structure Run where
  state : Except PyErr String
  id : Except PyErr String
  userName : Except PyErr String
  idAgain : Except PyErr String
  userNameAgain : Except PyErr String
  config : List (String × Except PyErr JVal)
  summary : List (String × Except PyErr JVal)

/-- One Notion property value as built by create_notion_properties. -/
inductive NProp
  | title (content : String)
  | date (start : String)
  | richText (content : String)
  deriving DecidableEq

/-- A Notion page's property dictionary, in insertion order. -/
abbrev NotionPage := List (String × NProp)

/-- Python dict assignment d[k] = v: overwrite in place when k is present,
append otherwise. -/
def dictInsert : NotionPage → String → NProp → NotionPage
  | [], k, v => [(k, v)]
  | (k', v') :: rest, k, v =>
    if k' == k then (k, v) :: rest else (k', v') :: dictInsert rest k v

/-- Python dict read d[key] (and the membership test key in d): the value at
the first matching key, none when the key is absent. -/
def lookupKey {A : Type} : List (String × A) → String → Option A
  | [], _ => none
  | (k, v) :: rest, key => if key == k then some v else lookupKey rest key

/-- get_timestamp (source lines 103-110).  datetime.fromtimestamp().strftime
is local-time dependent, so the formatting step is the parameter fmt.  The
function returns fmt n when the summary holds a numeric _timestamp, and the
empty string when the key is absent, when the value is non-numeric
(fromtimestamp raises, caught by the except) or when reading the value itself
raises (also caught). -/
def get_timestamp (fmt : Int → String) (run : Run) : String :=
  match lookupKey run.summary "_timestamp" with
  | some (Except.ok (JVal.num n)) => fmt n
  | some _ => ""
  | none => ""

/-- get_run_value (source lines 112-121): config value stringified when the
key is in config, else the summary value stringified when the key is in
summary, else the empty string; any exception during the lookups is caught
and yields the empty string. -/
def get_run_value (run : Run) (key : String) : String :=
  match lookupKey run.config key with
  | some (Except.ok v) => pyStr v
  | some (Except.error _) => ""
  | none =>
    match lookupKey run.summary key with
    | some (Except.ok v) => pyStr v
    | some (Except.error _) => ""
    | none => ""

/-- The loop body of create_notion_properties (source lines 127-135), folding
the zipped header/value pairs into the property dictionary: a header equal to
"Run ID" sets the title property under the key "Name", a header equal to
"Timestamp" sets a date property only when the value is non-empty, and every
other header sets a rich_text property unconditionally. -/
def cnpGo : List (String × String) → NotionPage → NotionPage
  | [], properties => properties
  | (header, value) :: rest, properties =>
    if header == "Run ID" then
      cnpGo rest (dictInsert properties "Name" (NProp.title value))
    else if header == "Timestamp" then
      if value == "" then cnpGo rest properties
      else cnpGo rest (dictInsert properties header (NProp.date value))
    else cnpGo rest (dictInsert properties header (NProp.richText value))

/-- create_notion_properties (source lines 123-137). -/
def create_notion_properties (run_data : List String) (headers : List String) :
    NotionPage :=
  cnpGo (headers.zip run_data) []

/-- The try-block body of process_runs (source lines 148-158): build the row
[run.id, get_timestamp(run), run.user.name] followed by get_run_value for
every header beyond the first three, then create the property set.  The
re-reads of run.id and run.user.name can raise; the caller catches that. -/
def buildPage (fmt : Int → String) (run : Run) (final_headers : List String) :
    Except PyErr NotionPage :=
  match run.idAgain with
  | .error e => .error e
  | .ok i =>
    let ts := get_timestamp fmt run
    match run.userNameAgain with
    | .error e => .error e
    | .ok un =>
      let row_data := i :: ts :: un :: (final_headers.drop 3).map (get_run_value run)
      .ok (create_notion_properties row_data final_headers)

/-- The per-run body of the process_runs loop (source lines 145-162).
The filter is evaluated outside the try block, with Python short-circuiting:
run.state first; run.id only when the state is "finished"; run.user.name only
when the id is not among the existing ids.  An exception in any of these
filter reads propagates (.error).  Inside the try block, an exception while
building the row is caught and the run is skipped (.ok none). -/
def step_run (fmt : Int → String) (run : Run) (existing_run_ids : List String)
    (final_headers : List String) (user_name : String) :
    Except PyErr (Option NotionPage) :=
  match run.state with
  | .error e => .error e
  | .ok st =>
    if st == "finished" then
      match run.id with
      | .error e => .error e
      | .ok i =>
        if existing_run_ids.contains i then .ok none
        else
          match run.userName with
          | .error e => .error e
          | .ok un =>
            if un == user_name then
              match buildPage fmt run final_headers with
              | .ok props => .ok (some props)
              | .error _ => .ok none
            else .ok none
    else .ok none

/-- process_runs (source lines 139-164): iterate the fetched runs in order,
appending the property set of each included run; a filter-read exception
aborts the whole batch, a caught build exception skips only that run. -/
def process_runs (fmt : Int → String) (runs : List Run)
    (existing_run_ids : List String) (final_headers : List String)
    (user_name : String) : Except PyErr (List NotionPage) :=
  match runs with
  | [] => .ok []
  | run :: rest =>
    match step_run fmt run existing_run_ids final_headers user_name with
    | .error e => .error e
    | .ok none => process_runs fmt rest existing_run_ids final_headers user_name
    | .ok (some props) =>
      match process_runs fmt rest existing_run_ids final_headers user_name with
      | .ok ps => .ok (props :: ps)
      | .error e => .error e

/-- Outcome of one sync_data call: which pages were attempted (a create call
was issued for them), which were actually created, and the error raised, if
any. -/
structure SyncResult where
  attempted : List NotionPage
  created : List NotionPage
  error : Option PyErr
  deriving DecidableEq

/-- sync_data (source lines 166-176): create one page per property set,
sequentially.  create p = none models a successful notion.pages.create call,
create p = some m a call raising an exception with message m; the first
failure is wrapped in NotionError and raised, abandoning the remaining pages.
Pages created before the failure stay created; there is no rollback or
retry. -/
def sync_data (create : NotionPage → Option String) (pages : List NotionPage) :
    SyncResult :=
  match pages with
  | [] => ⟨[], [], none⟩
  | p :: rest =>
    match create p with
    | none =>
      let r := sync_data create rest
      ⟨p :: r.attempted, p :: r.created, r.error⟩
    | some m => ⟨[p], [], some (.notionError ("Failed to sync data: " ++ m))⟩

/-- One row of the Notion destination database as returned by the query in
get_existing_run_ids.  nameProp models page properties Name title: none means
the page has no "Name" property at all (the dictionary access raises
KeyError), some ts means the title property is present with ts as the list of
its text-run contents. -/
structure DestPage where
  nameProp : Option (List String)
  deriving DecidableEq

/-- The extraction loop of get_existing_run_ids (source lines 184-187): for
each page take the first text-run content of the "Name" title when the title
list is non-empty, skip the page when the list is empty, and raise KeyError
when the "Name" property is absent. -/
def extract_ids : List DestPage → Except String (List String)
  | [] => .ok []
  | p :: rest =>
    match p.nameProp with
    | none => .error "KeyError: Name"
    | some [] => extract_ids rest
    | some (t :: _) =>
      match extract_ids rest with
      | .ok r => .ok (t :: r)
      | .error e => .error e

/-- get_existing_run_ids (source lines 178-191): the whole body, including
the destination query (passed here as its result) and the extraction loop,
is wrapped in a try whose except re-raises any exception as NotionError. -/
def get_existing_run_ids (query : Except String (List DestPage)) :
    Except PyErr (List String) :=
  match query with
  | .error e => .error (.notionError ("Failed to get existing run IDs: " ++ e))
  | .ok pages =>
    match extract_ids pages with
    | .ok ids => .ok ids
    | .error e => .error (.notionError ("Failed to get existing run IDs: " ++ e))

/-- Outcome of one tick of main: the pages actually created in the
destination during the tick, and the exception main re-raised, if any. -/
structure TickOutcome where
  created : List NotionPage
  error : Option PyErr
  deriving DecidableEq

/-- The pipeline of main (source lines 193-214) from the destination read on:
get_existing_run_ids, process_runs, and sync_data when the page list is
non-empty.  main's except clause (lines 212-214) logs the exception and
re-raises it unchanged, so the error field is exactly the exception that
escaped the pipeline.  query is the result of the destination query, runs the
fetched run list. -/
def main_tick (fmt : Int → String) (create : NotionPage → Option String)
    (query : Except String (List DestPage)) (runs : List Run)
    (final_headers : List String) (user_name : String) : TickOutcome :=
  match get_existing_run_ids query with
  | .error e => ⟨[], some e⟩
  | .ok existing_run_ids =>
    match process_runs fmt runs existing_run_ids final_headers user_name with
    | .error e => ⟨[], some e⟩
    | .ok new_pages =>
      if new_pages.isEmpty then ⟨[], none⟩
      else
        let r := sync_data create new_pages
        ⟨r.created, r.error⟩

/-- main's except clause (source lines 212-214) re-raises the caught
exception unchanged, so the exception escaping main is the tick's error. -/
def main_result (o : TickOutcome) : Option PyErr :=
  o.error

/-- What one iteration of the scheduler while-loop (source lines 223-232)
can observe: run_pending runs the due job (whose outcome is the tick), an
iteration interrupted by KeyboardInterrupt, or run_pending failing inside
the scheduling machinery itself. -/
inductive LoopStep
  | poll (due : Bool) (tick : TickOutcome)
  | interrupt
  | machineryError (msg : String)

/-- Result of one loop iteration: the loop stops, or it continues after
sleeping the given number of seconds. -/
inductive IterOutcome
  | stopped
  | continued (sleep : Nat)
  deriving DecidableEq

/-- One iteration of the scheduler while-loop (source lines 223-232).  The
schedule library does not catch job exceptions, so when the due job (the
lambda calling main) raises, the exception propagates out of
schedule.run_pending into the loop's except Exception handler, which logs it
and sleeps 60; KeyboardInterrupt breaks the loop; otherwise the iteration
ends with time.sleep(1). -/
def loop_iter : LoopStep → IterOutcome
  | .interrupt => .stopped
  | .machineryError _ => .continued 60
  | .poll due tick =>
    if due then
      match main_result tick with
      | some _ => .continued 60
      | none => .continued 1
    else .continued 1

/-- The value of an attribute read that succeeded (and a default for the
error case, used only under hypotheses that rule it out). -/
def exVal : Except PyErr String → String
  | .ok s => s
  | .error _ => ""

/-- Whether an attribute read succeeds. -/
def isOkE : Except PyErr String → Bool
  | .ok _ => true
  | .error _ => false

/-- All five attribute-access sites of a run succeed. -/
def cleanRun (r : Run) : Bool :=
  isOkE r.state && isOkE r.id && isOkE r.userName &&
    isOkE r.idAgain && isOkE r.userNameAgain

/-- The inclusion filter of process_runs (source lines 145-146), read off the
attribute values: state equals "finished", id not among the existing ids,
owner name equals the target user name. -/
def qualifies (r : Run) (existing_run_ids : List String) (user_name : String) :
    Bool :=
  exVal r.state == "finished" && !(existing_run_ids.contains (exVal r.id)) &&
    exVal r.userName == user_name

/-- The property set built for a run whose attribute reads all succeed. -/
def pageOf (fmt : Int → String) (r : Run) (final_headers : List String) :
    NotionPage :=
  create_notion_properties
    (exVal r.idAgain :: get_timestamp fmt r :: exVal r.userNameAgain ::
      (final_headers.drop 3).map (get_run_value r))
    final_headers

/-- The run identifier a destination row is titled with: the first text-run
content of its "Name" title, when there is one. -/
def titleHead (d : DestPage) : Option String :=
  match d.nameProp with
  | some (t :: _) => some t
  | _ => none

/-- Number of destination rows titled with t. -/
def countTitle (db : List DestPage) (t : String) : Nat :=
  (db.filter (fun d => titleHead d == some t)).length

/-- Every run identifier titles at most one destination row. -/
def atMostOnePerTitle (db : List DestPage) : Prop :=
  ∀ t, countTitle db t ≤ 1

/-- The destination row resulting from a successful create of a page: the
title column "Name" holds the page's title content when one was set, and an
empty title list otherwise (the Notion destination gives every row of a
database a title property). -/
def pageToDest (p : NotionPage) : DestPage :=
  ⟨some (match lookupKey p "Name" with
         | some (NProp.title c) => [c]
         | _ => [])⟩

/-- The value of the last pair with key h, scanning left to right (the value
that survives repeated dict overwrites). -/
def lastRich (h : String) : List (String × String) → Option String
  | [] => none
  | (k, v) :: rest =>
    match lastRich h rest with
    | some w => some w
    | none => if k == h then some v else none



/-- Concrete timestamp formatter used in witnesses (stands for the strftime
of the local datetime). -/
def fmtW : Int → String := fun n => toString n

/-- Canonical header list of the configuration. -/
def HW : List String := ["Run ID", "Timestamp", "User"]

/-- Header list with one user-defined column. -/
def HW4 : List String := ["Run ID", "Timestamp", "User", "lr"]

/-- Degenerate header list with a user-defined column named Timestamp. -/
def hdrsDupTs : List String := ["Run ID", "Timestamp", "User", "Timestamp"]

/-- A finished run of user alice whose reads all succeed. -/
def runW1 : Run :=
  ⟨.ok "finished", .ok "r1", .ok "alice", .ok "r1", .ok "alice", [], []⟩

/-- Another finished run of user alice. -/
def runW3 : Run :=
  ⟨.ok "finished", .ok "r3", .ok "alice", .ok "r3", .ok "alice", [], []⟩

/-- A run still in state running. -/
def runW4 : Run :=
  ⟨.ok "running", .ok "r4", .ok "alice", .ok "r4", .ok "alice", [], []⟩

/-- A finished run owned by a different user. -/
def runW5 : Run :=
  ⟨.ok "finished", .ok "r5", .ok "bob", .ok "r5", .ok "bob", [], []⟩

/-- A finished alice run whose id is already in the destination. -/
def runW6 : Run :=
  ⟨.ok "finished", .ok "r0", .ok "alice", .ok "r0", .ok "alice", [], []⟩

/-- A qualifying run whose run.id re-read inside the try block raises. -/
def runBuildFailW : Run :=
  ⟨.ok "finished", .ok "r2", .ok "alice", .error (.otherError "lazy fetch failed"),
    .ok "alice", [], []⟩

/-- A run whose run.state read raises during filtering. -/
def runFilterFailW : Run :=
  ⟨.error (.otherError "state read failed"), .ok "r9", .ok "alice", .ok "r9",
    .ok "alice", [], []⟩

/-- A second finished alice run carrying the same id as runW1. -/
def runDupW : Run :=
  ⟨.ok "finished", .ok "r1", .ok "alice", .ok "r1", .ok "alice", [],
    [("loss", .ok (.str "0.5"))]⟩

/-- A run with a config entry lr and a summary entry acc. -/
def runCfgW : Run :=
  ⟨.ok "finished", .ok "r7", .ok "alice", .ok "r7", .ok "alice",
    [("lr", .ok (.str "0.01"))], [("acc", .ok (.num 99))]⟩

/-- A run whose summary has a numeric epoch timestamp. -/
def runTsW : Run :=
  ⟨.ok "finished", .ok "r8", .ok "alice", .ok "r8", .ok "alice", [],
    [("_timestamp", .ok (.num 0))]⟩

/-- A destination database with one row titled r0. -/
def dbW1 : List DestPage := [⟨some ["r0"]⟩]

/-- A destination query result with duplicate titles and an empty title. -/
def dbW2 : List DestPage := [⟨some ["a"]⟩, ⟨some []⟩, ⟨some ["a"]⟩]

/-- A create call that always succeeds. -/
def createOkW : NotionPage → Option String := fun _ => none

/-- A create call that always raises. -/
def createFailW : NotionPage → Option String := fun _ => some "boom"

/-- A page titled with the given id. -/
def pgW (s : String) : NotionPage := [("Name", NProp.title s)]

/-- A create call that raises exactly on the page titled r2. -/
def createMidFailW : NotionPage → Option String :=
  fun p => if lookupKey p "Name" = some (NProp.title "r2") then some "boom" else none

theorem lookupKey_dictInsert_self (d : NotionPage) (k : String) (v : NProp) :
    lookupKey (dictInsert d k v) k = some v := by
  induction d with
  | nil => simp [dictInsert, lookupKey]
  | cons p rest ih =>
    obtain ⟨a, b⟩ := p
    by_cases h : a = k
    · subst h
      simp [dictInsert, lookupKey]
    · have hne : (a == k) = false := by simpa using h
      have hne' : (k == a) = false := by simpa using fun hh => h hh.symm
      simp [dictInsert, lookupKey, hne, hne', ih]

theorem lookupKey_dictInsert_ne (d : NotionPage) (k k' : String) (v : NProp)
    (h : k' ≠ k) : lookupKey (dictInsert d k v) k' = lookupKey d k' := by
  have hk : (k' == k) = false := by simpa using h
  induction d with
  | nil => simp [dictInsert, lookupKey, hk]
  | cons p rest ih =>
    obtain ⟨a, b⟩ := p
    by_cases ha : a = k
    · subst ha
      simp [dictInsert, lookupKey, hk]
    · have hne : (a == k) = false := by simpa using ha
      by_cases hb : k' = a
      · subst hb
        simp [dictInsert, lookupKey, hne]
      · have hb' : (k' == a) = false := by simpa using hb
        simp [dictInsert, lookupKey, hne, hb', ih]

theorem cnp_lookupKey_skip (K : String) (pairs : List (String × String))
    (d : NotionPage) (hK : ∀ p ∈ pairs, p.1 ≠ K)
    (hN : K = "Name" → ∀ p ∈ pairs, p.1 ≠ "Run ID") :
    lookupKey (cnpGo pairs d) K = lookupKey d K := by
  induction pairs generalizing d with
  | nil => simp [cnpGo]
  | cons p rest ih =>
    obtain ⟨k, v⟩ := p
    have hkK : k ≠ K := hK (k, v) (by simp)
    have hKrest : ∀ q ∈ rest, q.1 ≠ K := fun q hq => hK q (by simp [hq])
    have hNrest : K = "Name" → ∀ q ∈ rest, q.1 ≠ "Run ID" :=
      fun hKn q hq => hN hKn q (by simp [hq])
    by_cases h1 : k = "Run ID"
    · have hKname : K ≠ "Name" := by
        intro hKn
        exact hN hKn (k, v) (by simp) h1
      have h1b : (k == "Run ID") = true := by simpa using h1
      simp only [cnpGo, h1b, if_true]
      rw [ih _ hKrest hNrest, lookupKey_dictInsert_ne _ _ _ _ hKname]
    · have h1b : (k == "Run ID") = false := by simpa using h1
      by_cases h2 : k = "Timestamp"
      · have h2b : (k == "Timestamp") = true := by simpa using h2
        by_cases h3 : v = ""
        · have h3b : (v == "") = true := by simpa using h3
          simp only [cnpGo, h1b, h2b, h3b, Bool.false_eq_true, if_false, if_true]
          exact ih _ hKrest hNrest
        · have h3b : (v == "") = false := by simpa using h3
          simp only [cnpGo, h1b, h2b, h3b, Bool.false_eq_true, if_false, if_true]
          rw [ih _ hKrest hNrest, lookupKey_dictInsert_ne _ _ _ _ (Ne.symm hkK)]
      · have h2b : (k == "Timestamp") = false := by simpa using h2
        simp only [cnpGo, h1b, h2b, Bool.false_eq_true, if_false]
        rw [ih _ hKrest hNrest, lookupKey_dictInsert_ne _ _ _ _ (Ne.symm hkK)]

theorem cnp_lookupKey_last_none (h : String) (pairs : List (String × String))
    (d : NotionPage) (hn : h ≠ "Name") (hl : lastRich h pairs = none) :
    lookupKey (cnpGo pairs d) h = lookupKey d h := by
  induction pairs generalizing d with
  | nil => simp [cnpGo]
  | cons p rest ih =>
    obtain ⟨k, v⟩ := p
    have hrest : lastRich h rest = none := by
      cases hc : lastRich h rest with
      | none => rfl
      | some w => simp [lastRich, hc] at hl
    have hkh : (k == h) = false := by
      cases hkc : (k == h) with
      | false => rfl
      | true => simp [lastRich, hrest, hkc] at hl
    have hkh' : k ≠ h := by simpa using hkh
    by_cases h1 : k = "Run ID"
    · have h1b : (k == "Run ID") = true := by simpa using h1
      simp only [cnpGo, h1b, if_true]
      rw [ih _ hrest, lookupKey_dictInsert_ne _ _ _ _ hn]
    · have h1b : (k == "Run ID") = false := by simpa using h1
      by_cases h2 : k = "Timestamp"
      · have h2b : (k == "Timestamp") = true := by simpa using h2
        by_cases h3 : v = ""
        · have h3b : (v == "") = true := by simpa using h3
          simp only [cnpGo, h1b, h2b, h3b, Bool.false_eq_true, if_false, if_true]
          exact ih _ hrest
        · have h3b : (v == "") = false := by simpa using h3
          simp only [cnpGo, h1b, h2b, h3b, Bool.false_eq_true, if_false, if_true]
          rw [ih _ hrest, lookupKey_dictInsert_ne _ _ _ _ (Ne.symm hkh')]
      · have h2b : (k == "Timestamp") = false := by simpa using h2
        simp only [cnpGo, h1b, h2b, Bool.false_eq_true, if_false]
        rw [ih _ hrest, lookupKey_dictInsert_ne _ _ _ _ (Ne.symm hkh')]

theorem cnp_lookupKey_last_some (h v : String) (pairs : List (String × String))
    (d : NotionPage) (hr : h ≠ "Run ID") (ht : h ≠ "Timestamp")
    (hn : h ≠ "Name") (hl : lastRich h pairs = some v) :
    lookupKey (cnpGo pairs d) h = some (NProp.richText v) := by
  induction pairs generalizing d with
  | nil => simp [lastRich] at hl
  | cons p rest ih =>
    obtain ⟨k, w⟩ := p
    cases hrest : lastRich h rest with
    | some w' =>
      have hv : w' = v := by simpa [lastRich, hrest] using hl
      subst hv
      by_cases h1 : k = "Run ID"
      · have h1b : (k == "Run ID") = true := by simpa using h1
        simp only [cnpGo, h1b, if_true]
        exact ih _ hrest
      · have h1b : (k == "Run ID") = false := by simpa using h1
        by_cases h2 : k = "Timestamp"
        · have h2b : (k == "Timestamp") = true := by simpa using h2
          by_cases h3 : w = ""
          · have h3b : (w == "") = true := by simpa using h3
            simp only [cnpGo, h1b, h2b, h3b, Bool.false_eq_true, if_false, if_true]
            exact ih _ hrest
          · have h3b : (w == "") = false := by simpa using h3
            simp only [cnpGo, h1b, h2b, h3b, Bool.false_eq_true, if_false, if_true]
            exact ih _ hrest
        · have h2b : (k == "Timestamp") = false := by simpa using h2
          simp only [cnpGo, h1b, h2b, Bool.false_eq_true, if_false]
          exact ih _ hrest
    | none =>
      have hkh : (k == h) = true := by
        cases hkc : (k == h) with
        | true => rfl
        | false => simp [lastRich, hrest, hkc] at hl
      have hkeq : k = h := by simpa using hkh
      have hwv : w = v := by simpa [lastRich, hrest, hkh] using hl
      subst hkeq
      subst hwv
      have h1b : (k == "Run ID") = false := by simpa using hr
      have h2b : (k == "Timestamp") = false := by simpa using ht
      simp only [cnpGo, h1b, h2b, Bool.false_eq_true, if_false]
      rw [cnp_lookupKey_last_none k rest _ hn hrest,
        lookupKey_dictInsert_self]

theorem zip_map_self (ks : List String) (f : String → String) :
    ks.zip (ks.map f) = ks.map fun k => (k, f k) := by
  induction ks with
  | nil => simp
  | cons k rest ih => simp [ih]

theorem lastRich_map_self (h : String) (g : String → String) (ks : List String) :
    lastRich h (ks.map fun k => (k, g k)) =
      if h ∈ ks then some (g h) else none := by
  induction ks with
  | nil => simp [lastRich]
  | cons k rest ih =>
    by_cases hc : h ∈ rest
    · simp only [List.map_cons, lastRich, ih, if_pos hc]
      simp [List.mem_cons, hc]
    · simp only [List.map_cons, lastRich, ih, if_neg hc]
      by_cases hk : k = h
      · subst hk
        simp
      · have hk1 : (k == h) = false := by simpa using hk
        have hk2 : h ≠ k := fun hh => hk hh.symm
        simp [hk1, List.mem_cons, hk2, hc]

theorem buildPage_clean (fmt : Int → String) (r : Run) (H : List String)
    (h1 : isOkE r.idAgain = true) (h2 : isOkE r.userNameAgain = true) :
    buildPage fmt r H = .ok (pageOf fmt r H) := by
  cases hi : r.idAgain with
  | error e => rw [hi] at h1; simp [isOkE] at h1
  | ok i =>
    cases hu : r.userNameAgain with
    | error e => rw [hu] at h2; simp [isOkE] at h2
    | ok un => simp [buildPage, pageOf, exVal, hi, hu]

theorem step_run_clean (fmt : Int → String) (r : Run) (E : List String)
    (H : List String) (u : String) (hc : cleanRun r = true) :
    step_run fmt r E H u =
      .ok (if qualifies r E u then some (pageOf fmt r H) else none) := by
  simp only [cleanRun, Bool.and_eq_true] at hc
  obtain ⟨⟨⟨⟨h1, h2⟩, h3⟩, h4⟩, h5⟩ := hc
  cases hs : r.state with
  | error e => rw [hs] at h1; simp [isOkE] at h1
  | ok st =>
    simp only [step_run, hs]
    cases hf : (st == "finished") with
    | false => simp [qualifies, exVal, hs, hf]
    | true =>
      simp only [if_true]
      cases hid : r.id with
      | error e => rw [hid] at h2; simp [isOkE] at h2
      | ok i =>
        cases hcont : E.contains i with
        | true =>
          have hmem : i ∈ E := by simpa using hcont
          simp [qualifies, exVal, hs, hf, hid, hcont, hmem]
        | false =>
          have hmem : i ∉ E := by simpa using hcont
          simp only [Bool.false_eq_true, if_false]
          cases hun : r.userName with
          | error e => rw [hun] at h3; simp [isOkE] at h3
          | ok un =>
            cases huu : (un == u) with
            | false => simp [qualifies, exVal, hs, hf, hid, hcont, hun, huu]
            | true =>
              simp only [if_true]
              rw [buildPage_clean fmt r H h4 h5]
              simp [qualifies, exVal, hs, hf, hid, hcont, hun, huu, hmem]

theorem process_runs_clean (fmt : Int → String) (runs : List Run)
    (E : List String) (H : List String) (u : String)
    (hc : ∀ r ∈ runs, cleanRun r = true) :
    process_runs fmt runs E H u =
      .ok ((runs.filter (fun r => qualifies r E u)).map
        (fun r => pageOf fmt r H)) := by
  induction runs with
  | nil => simp [process_runs]
  | cons r rest ih =>
    have hr := hc r (by simp)
    have hrest : ∀ q ∈ rest, cleanRun q = true := fun q hq => hc q (by simp [hq])
    simp only [process_runs, step_run_clean fmt r E H u hr, ih hrest]
    cases hq : qualifies r E u with
    | false => simp [List.filter_cons, hq]
    | true => simp [List.filter_cons, hq]

theorem process_runs_append (fmt : Int → String) (a b : List Run)
    (E : List String) (H : List String) (u : String) :
    process_runs fmt (a ++ b) E H u =
      match process_runs fmt a E H u with
      | .ok l =>
        (match process_runs fmt b E H u with
         | .ok m => .ok (l ++ m)
         | .error e => .error e)
      | .error e => .error e := by
  induction a with
  | nil =>
    cases hb : process_runs fmt b E H u <;> simp [process_runs, hb]
  | cons r a' ih =>
    cases hstep : step_run fmt r E H u with
    | error e => simp [process_runs, hstep]
    | ok o =>
      cases o with
      | none => simpa [process_runs, hstep] using ih
      | some p =>
        simp only [List.cons_append, process_runs, hstep, List.append_eq]
        rw [ih]
        cases ha : process_runs fmt a' E H u with
        | error e => simp
        | ok l =>
          cases hb : process_runs fmt b E H u with
          | error e => simp
          | ok m => simp

theorem sync_data_all_ok (create : NotionPage → Option String)
    (pages : List NotionPage) (h : ∀ p ∈ pages, create p = none) :
    sync_data create pages = ⟨pages, pages, none⟩ := by
  induction pages with
  | nil => simp [sync_data]
  | cons p rest ih =>
    have hp : create p = none := h p (by simp)
    have hrest : ∀ q ∈ rest, create q = none := fun q hq => h q (by simp [hq])
    simp [sync_data, hp, ih hrest]

theorem sync_data_first_fail (create : NotionPage → Option String)
    (before : List NotionPage) (bad : NotionPage) (after : List NotionPage)
    (e : String) (hok : ∀ p ∈ before, create p = none)
    (hbad : create bad = some e) :
    sync_data create (before ++ bad :: after) =
      ⟨before ++ [bad], before,
        some (.notionError ("Failed to sync data: " ++ e))⟩ := by
  induction before with
  | nil => simp [sync_data, hbad]
  | cons p rest ih =>
    have hp : create p = none := hok p (by simp)
    have hrest : ∀ q ∈ rest, create q = none := fun q hq => hok q (by simp [hq])
    simp [sync_data, hp, ih hrest]

theorem extract_ids_mem (db : List DestPage) (E : List String)
    (h : extract_ids db = .ok E) :
    ∀ d ∈ db, ∀ t ts, d.nameProp = some (t :: ts) → t ∈ E := by
  induction db generalizing E with
  | nil => simp
  | cons d rest ih =>
    intro d' hd' t ts hprop
    cases hn : d.nameProp with
    | none => simp [extract_ids, hn] at h
    | some l =>
      cases l with
      | nil =>
        simp only [extract_ids, hn] at h
        rcases List.mem_cons.mp hd' with hh | hh
        · subst hh
          rw [hn] at hprop
          exact absurd hprop (by simp)
        · exact ih E h d' hh t ts hprop
      | cons t0 ts0 =>
        simp only [extract_ids, hn] at h
        cases hrest : extract_ids rest with
        | error e => rw [hrest] at h; exact absurd h (by simp)
        | ok E0 =>
          rw [hrest] at h
          have hE : E = t0 :: E0 := by
            cases h
            rfl
          subst hE
          rcases List.mem_cons.mp hd' with hh | hh
          · subst hh
            rw [hn] at hprop
            have : t0 = t := by
              cases hprop
              rfl
            simp [this]
          · exact List.mem_cons_of_mem _ (ih E0 hrest d' hh t ts hprop)

theorem extract_ids_all_some (db : List DestPage)
    (h : ∀ d ∈ db, d.nameProp ≠ none) :
    extract_ids db = .ok (db.filterMap titleHead) := by
  induction db with
  | nil => simp [extract_ids]
  | cons d rest ih =>
    have hd := h d (by simp)
    have hrest : ∀ q ∈ rest, q.nameProp ≠ none := fun q hq => h q (by simp [hq])
    cases hn : d.nameProp with
    | none => exact absurd hn hd
    | some l =>
      cases l with
      | nil => simp [extract_ids, hn, titleHead, List.filterMap_cons, ih hrest]
      | cons t ts => simp [extract_ids, hn, titleHead, List.filterMap_cons, ih hrest]

theorem extract_ids_has_none (db : List DestPage)
    (h : ∃ d ∈ db, d.nameProp = none) :
    extract_ids db = .error "KeyError: Name" := by
  induction db with
  | nil => simp at h
  | cons d rest ih =>
    cases hn : d.nameProp with
    | none => simp [extract_ids, hn]
    | some l =>
      have hrest : ∃ q ∈ rest, q.nameProp = none := by
        rcases h with ⟨d', hd', hd'n⟩
        rcases List.mem_cons.mp hd' with hh | hh
        · subst hh
          rw [hn] at hd'n
          exact absurd hd'n (by simp)
        · exact ⟨d', hh, hd'n⟩
      cases l with
      | nil => simp [extract_ids, hn, ih hrest]
      | cons t ts => simp [extract_ids, hn, ih hrest]

theorem countTitle_append (a b : List DestPage) (t : String) :
    countTitle (a ++ b) t = countTitle a t + countTitle b t := by
  simp [countTitle, List.filter_append]

theorem pageOf_lookupKey_name (fmt : Int → String) (r : Run)
    (hs : List String) (h1 : "Run ID" ∉ hs) (h2 : "Name" ∉ hs) :
    lookupKey (pageOf fmt r ("Run ID" :: hs)) "Name" =
      some (NProp.title (exVal r.idAgain)) := by
  simp only [pageOf, create_notion_properties, List.zip_cons_cons, cnpGo]
  rw [if_pos (by simp)]
  rw [cnp_lookupKey_skip "Name" _ _ ?_ ?_]
  · simp [dictInsert, lookupKey]
  · intro p hp
    have := (List.of_mem_zip hp).1
    intro hh
    rw [hh] at this
    exact h2 this
  · intro _ p hp
    have := (List.of_mem_zip hp).1
    intro hh
    rw [hh] at this
    exact h1 this

/-- C4: for every property-set sequence, the Writer creates rows
sequentially and on the first row-creation failure raises NotionError; the
rows created before the failing one remain created, no row after the failing
one is attempted, no rollback or retry occurs within the tick, and if no
creation fails every property set is written exactly once, in order. -/
theorem c4_writer_abort (create : NotionPage → Option String)
    (before : List NotionPage) (bad : NotionPage) (after : List NotionPage)
    (e : String) (hok : ∀ p ∈ before, create p = none)
    (hbad : create bad = some e) :
    (sync_data create (before ++ bad :: after)).created = before
    ∧ (sync_data create (before ++ bad :: after)).attempted = before ++ [bad]
    ∧ (sync_data create (before ++ bad :: after)).error =
        some (.notionError ("Failed to sync data: " ++ e))
    ∧ ∀ pages, (∀ p ∈ pages, create p = none) →
        sync_data create pages = ⟨pages, pages, none⟩ := by
  rw [sync_data_first_fail create before bad after e hok hbad]
  exact ⟨rfl, rfl, rfl, fun pages h => sync_data_all_ok create pages h⟩

/-- Witness for C4: with three pages of which the second fails to create,
the first stays created, the third is never attempted, and a NotionError is
raised. -/
theorem c4_writer_abort_witness :
    (sync_data createMidFailW ([pgW "r1"] ++ pgW "r2" :: [pgW "r3"])).created =
        [pgW "r1"]
    ∧ (sync_data createMidFailW ([pgW "r1"] ++ pgW "r2" :: [pgW "r3"])).attempted =
        [pgW "r1"] ++ [pgW "r2"]
    ∧ (sync_data createMidFailW ([pgW "r1"] ++ pgW "r2" :: [pgW "r3"])).error =
        some (.notionError ("Failed to sync data: " ++ "boom"))
    ∧ ∀ pages, (∀ p ∈ pages, createMidFailW p = none) →
        sync_data createMidFailW pages = ⟨pages, pages, none⟩ :=
  c4_writer_abort createMidFailW [pgW "r1"] (pgW "r2") [pgW "r3"] "boom"
    (by decide) (by decide)

/-- C5: a qualifying run in the middle of a batch whose row-building raises
is skipped with the batch intact: every run before and after it still yields
its property set, in order, and process_runs does not fail. -/
theorem c5_partial_batch_resilience (fmt : Int → String) (before : List Run)
    (bad : Run) (after : List Run) (E H : List String) (u i : String)
    (e : PyErr) (l1 l2 : List NotionPage)
    (hst : bad.state = .ok "finished") (hid : bad.id = .ok i)
    (hE : E.contains i = false) (hun : bad.userName = .ok u)
    (hfail : buildPage fmt bad H = .error e)
    (h1 : process_runs fmt before E H u = .ok l1)
    (h2 : process_runs fmt after E H u = .ok l2) :
    process_runs fmt (before ++ bad :: after) E H u = .ok (l1 ++ l2) := by
  have hmem : i ∉ E := by simpa using hE
  have hstep : step_run fmt bad E H u = .ok none := by
    simp [step_run, hst, hid, hE, hun, hfail, hmem]
  have hmid : process_runs fmt (bad :: after) E H u = .ok l2 := by
    simp [process_runs, hstep, h2]
  rw [process_runs_append, h1, hmid]

/-- Witness for C5: in a batch of three qualifying alice runs where the
second one raises while its row is built, the first and third pages are
still produced. -/
theorem c5_partial_batch_resilience_witness :
    process_runs fmtW ([runW1] ++ runBuildFailW :: [runW3]) [] HW "alice" =
      .ok ([pageOf fmtW runW1 HW] ++ [pageOf fmtW runW3 HW]) :=
  c5_partial_batch_resilience fmtW [runW1] runBuildFailW [runW3] [] HW
    "alice" "r2" (.otherError "lazy fetch failed")
    [pageOf fmtW runW1 HW] [pageOf fmtW runW3 HW]
    rfl rfl (by decide) rfl rfl rfl rfl

/-- C10: the per-run error guard starts only after the inclusion filter, so
an exception while reading state, id or user name during filtering
propagates out of process_runs and aborts the whole batch: no page list is
returned for any run, before or after the offending one. -/
theorem c10_filter_errors_unguarded (fmt : Int → String) (before : List Run)
    (bad : Run) (after : List Run) (E H : List String) (u : String)
    (e : PyErr) (l1 : List NotionPage)
    (hpre : process_runs fmt before E H u = .ok l1)
    (hbad : bad.state = .error e
      ∨ (bad.state = .ok "finished" ∧ bad.id = .error e)
      ∨ (∃ i, bad.state = .ok "finished" ∧ bad.id = .ok i ∧
          E.contains i = false ∧ bad.userName = .error e)) :
    process_runs fmt (before ++ bad :: after) E H u = .error e := by
  have hstep : step_run fmt bad E H u = .error e := by
    rcases hbad with h | ⟨ha, hb⟩ | ⟨i, ha, hb, hc, hd⟩
    · simp [step_run, h]
    · simp [step_run, ha, hb]
    · have hmem : i ∉ E := by simpa using hc
      simp [step_run, ha, hb, hc, hd, hmem]
  have hmid : process_runs fmt (bad :: after) E H u = .error e := by
    simp [process_runs, hstep]
  rw [process_runs_append, hpre, hmid]

/-- Witness for C10: a state read that raises in the middle of a batch
makes process_runs fail for the whole batch, dropping the pages of the runs
around it. -/
theorem c10_filter_errors_unguarded_witness :
    process_runs fmtW ([runW1] ++ runFilterFailW :: [runW3]) [] HW "alice" =
      .error (.otherError "state read failed") :=
  c10_filter_errors_unguarded fmtW [runW1] runFilterFailW [runW3] [] HW
    "alice" (.otherError "state read failed") [pageOf fmtW runW1 HW]
    rfl (Or.inl rfl)

/-- C2: when every attribute read succeeds, a run yields an output property
set iff its state is "finished", its id is not among the existing ids and
its owner equals the target user by exact string comparison; the output has
exactly one property set per qualifying run, in fetch order. -/
theorem c2_inclusion_filter_order (fmt : Int → String) (runs : List Run)
    (E H : List String) (u : String)
    (hclean : ∀ r ∈ runs, cleanRun r = true) :
    process_runs fmt runs E H u =
      .ok ((runs.filter (fun r => qualifies r E u)).map (fun r => pageOf fmt r H))
    ∧ ∀ r : Run, qualifies r E u =
        (exVal r.state == "finished" && !(E.contains (exVal r.id)) &&
          exVal r.userName == u) :=
  ⟨process_runs_clean fmt runs E H u hclean, fun _ => rfl⟩

/-- Witness for C2: a batch mixing an already-synced run, a running run, a
qualifying run and a run of another user yields exactly the qualifying run's
page. -/
theorem c2_inclusion_filter_order_witness :
    process_runs fmtW [runW6, runW4, runW1, runW5] ["r0"] HW "alice" =
      .ok (([runW6, runW4, runW1, runW5].filter
          (fun r => qualifies r ["r0"] "alice")).map (fun r => pageOf fmtW r HW))
    ∧ ∀ r : Run, qualifies r ["r0"] "alice" =
        (exVal r.state == "finished" && !(List.contains ["r0"] (exVal r.id)) &&
          exVal r.userName == "alice") :=
  c2_inclusion_filter_order fmtW [runW6, runW4, runW1, runW5] ["r0"] HW
    "alice" (by decide)

/-- Counterexample for C3: a tick whose sync cycle raises (here the first
page creation fails) is not swallowed at the per-tick boundary — main
re-raises it — and the scheduler loop then sleeps the fixed 60 time-units,
not the normal 1 time-unit polling interval. -/
theorem c3_counterexample :
    main_tick fmtW createFailW (.ok []) [runW1] HW "alice" =
      ⟨[], some (.notionError ("Failed to sync data: " ++ "boom"))⟩
    ∧ main_result (main_tick fmtW createFailW (.ok []) [runW1] HW "alice") ≠ none
    ∧ loop_iter (.poll true (main_tick fmtW createFailW (.ok []) [runW1] HW "alice")) =
        .continued 60
    ∧ loop_iter (.poll true (main_tick fmtW createFailW (.ok []) [runW1] HW "alice")) ≠
        .continued 1 := by
  refine ⟨rfl, by decide, rfl, by decide⟩

/-- C3 as amended: an exception raised during a sync cycle is logged at the
per-tick boundary but re-raised by main; it propagates out of run_pending
and is caught by the outer loop, which logs it and waits the fixed 60
time-units before resuming polling — the same wait as for an error in the
scheduling machinery itself.  The loop never stops on such errors (only
KeyboardInterrupt stops it), and only an error-free iteration sleeps the
normal 1 time-unit. -/
theorem c3_tick_error_containment_amended :
    (∀ t : TickOutcome, main_result t ≠ none →
        loop_iter (.poll true t) = .continued 60)
    ∧ (∀ t : TickOutcome, main_result t = none →
        loop_iter (.poll true t) = .continued 1)
    ∧ (∀ (due : Bool) (t : TickOutcome), loop_iter (.poll due t) ≠ .stopped)
    ∧ (∀ m : String, loop_iter (.machineryError m) = .continued 60)
    ∧ loop_iter .interrupt = .stopped := by
  refine ⟨?_, ?_, ?_, fun m => rfl, rfl⟩
  · intro t ht
    cases hmr : main_result t with
    | none => exact absurd hmr ht
    | some e => simp [loop_iter, hmr]
  · intro t ht
    simp [loop_iter, ht]
  · intro due t
    cases due with
    | false => simp [loop_iter]
    | true =>
      cases hmr : main_result t with
      | none => simp [loop_iter, hmr]
      | some e => simp [loop_iter, hmr]

/-- Witness for C3 as amended: a failing tick makes the loop wait 60 units,
and an error-free non-due iteration is not stopped. -/
theorem c3_tick_error_containment_amended_witness :
    loop_iter (.poll true ⟨[], some (.otherError "x")⟩) = .continued 60
    ∧ loop_iter (.poll false ⟨[], none⟩) ≠ .stopped :=
  ⟨c3_tick_error_containment_amended.1 ⟨[], some (.otherError "x")⟩ (by decide),
    c3_tick_error_containment_amended.2.2.1 false ⟨[], none⟩⟩

/-- Counterexample for C8: a successfully returned query row without a
"Name" property is not skipped as an absent title — the KeyError it causes
is re-raised as NotionError, so the reader fails although the query itself
succeeded. -/
theorem c8_counterexample :
    get_existing_run_ids (.ok [DestPage.mk none]) =
      .error (.notionError ("Failed to get existing run IDs: " ++ "KeyError: Name")) :=
  rfl

/-- C8 as amended: for a successful query whose rows all carry a "Name"
title property, the reader returns the ordered first-text contents, skipping
rows whose title list is empty, without deduplicating; it fails with
NotionError when the query fails, and also when some row lacks the "Name"
property altogether. -/
theorem c8_reader_contract_amended (db : List DestPage) :
    ((∀ d ∈ db, d.nameProp ≠ none) →
      get_existing_run_ids (.ok db) = .ok (db.filterMap titleHead))
    ∧ ((∃ d ∈ db, d.nameProp = none) →
      get_existing_run_ids (.ok db) =
        .error (.notionError ("Failed to get existing run IDs: " ++ "KeyError: Name")))
    ∧ (∀ e, get_existing_run_ids (.error e) =
        .error (.notionError ("Failed to get existing run IDs: " ++ e))) := by
  refine ⟨fun h => ?_, fun h => ?_, fun e => rfl⟩
  · simp [get_existing_run_ids, extract_ids_all_some db h]
  · simp [get_existing_run_ids, extract_ids_has_none db h]

/-- Witness for C8 as amended: duplicate titles are returned twice and the
empty-titled row is skipped. -/
theorem c8_reader_contract_amended_witness :
    get_existing_run_ids (.ok dbW2) = .ok (dbW2.filterMap titleHead) :=
  (c8_reader_contract_amended dbW2).1 (by decide)

/-- C9: two fetched runs carrying the same identifier, both finished, both
owned by the target user, with that identifier absent from the pre-read
existing-id list, each yield a property set titled with that identifier —
dedup happens only against the pre-read list, never within a batch — and a
fully successful Writer pass creates both rows. -/
theorem c9_no_in_batch_dedup (fmt : Int → String) (r1 r2 : Run)
    (E : List String) (hs : List String) (u i : String)
    (h1 : "Run ID" ∉ hs) (h2 : "Name" ∉ hs)
    (hc1 : cleanRun r1 = true) (hc2 : cleanRun r2 = true)
    (ha1 : r1.idAgain = r1.id) (ha2 : r2.idAgain = r2.id)
    (hid1 : r1.id = .ok i) (hid2 : r2.id = .ok i)
    (hst1 : r1.state = .ok "finished") (hst2 : r2.state = .ok "finished")
    (hun1 : r1.userName = .ok u) (hun2 : r2.userName = .ok u)
    (hE : E.contains i = false) :
    process_runs fmt [r1, r2] E ("Run ID" :: hs) u =
      .ok [pageOf fmt r1 ("Run ID" :: hs), pageOf fmt r2 ("Run ID" :: hs)]
    ∧ lookupKey (pageOf fmt r1 ("Run ID" :: hs)) "Name" = some (NProp.title i)
    ∧ lookupKey (pageOf fmt r2 ("Run ID" :: hs)) "Name" = some (NProp.title i)
    ∧ ∀ create : NotionPage → Option String, (∀ p, create p = none) →
        (sync_data create
          [pageOf fmt r1 ("Run ID" :: hs), pageOf fmt r2 ("Run ID" :: hs)]).created =
          [pageOf fmt r1 ("Run ID" :: hs), pageOf fmt r2 ("Run ID" :: hs)] := by
  have hmem : i ∉ E := by simpa using hE
  have hq1 : qualifies r1 E u = true := by
    simp [qualifies, exVal, hst1, hid1, hun1, hE, hmem]
  have hq2 : qualifies r2 E u = true := by
    simp [qualifies, exVal, hst2, hid2, hun2, hE, hmem]
  refine ⟨?_, ?_, ?_, ?_⟩
  · rw [process_runs_clean fmt [r1, r2] E ("Run ID" :: hs) u ?_]
    · simp [List.filter_cons, hq1, hq2]
    · intro r hr
      rcases List.mem_cons.mp hr with hh | hh
      · subst hh; exact hc1
      · rcases List.mem_cons.mp hh with hh2 | hh2
        · subst hh2; exact hc2
        · simp at hh2
  · rw [pageOf_lookupKey_name fmt r1 hs h1 h2, ha1, hid1]
    rfl
  · rw [pageOf_lookupKey_name fmt r2 hs h1 h2, ha2, hid2]
    rfl
  · intro create hcr
    rw [sync_data_all_ok create _ (fun p _ => hcr p)]

/-- Witness for C9: runW1 and runDupW share the id r1; both pages are
produced and both rows are created. -/
theorem c9_no_in_batch_dedup_witness :
    process_runs fmtW [runW1, runDupW] [] ("Run ID" :: ["Timestamp", "User"]) "alice" =
      .ok [pageOf fmtW runW1 ("Run ID" :: ["Timestamp", "User"]),
        pageOf fmtW runDupW ("Run ID" :: ["Timestamp", "User"])]
    ∧ lookupKey (pageOf fmtW runW1 ("Run ID" :: ["Timestamp", "User"])) "Name" =
        some (NProp.title "r1")
    ∧ lookupKey (pageOf fmtW runDupW ("Run ID" :: ["Timestamp", "User"])) "Name" =
        some (NProp.title "r1")
    ∧ ∀ create : NotionPage → Option String, (∀ p, create p = none) →
        (sync_data create
          [pageOf fmtW runW1 ("Run ID" :: ["Timestamp", "User"]),
            pageOf fmtW runDupW ("Run ID" :: ["Timestamp", "User"])]).created =
          [pageOf fmtW runW1 ("Run ID" :: ["Timestamp", "User"]),
            pageOf fmtW runDupW ("Run ID" :: ["Timestamp", "User"])] :=
  c9_no_in_batch_dedup fmtW runW1 runDupW [] ["Timestamp", "User"] "alice" "r1"
    (by decide) (by decide) (by decide) (by decide) rfl rfl rfl rfl rfl rfl
    rfl rfl (by decide)

/-- Counterexample for C6: with headers whose fourth entry is named
"Timestamp", an included run with no value for it gets no plain-text
property for that header at all — the name-based special-casing maps it to
the date branch, which omits empty values — contradicting the claim that
every header beyond the first three yields a plain-text property set even
when the value is empty. -/
theorem c6_counterexample :
    "Timestamp" ∈ hdrsDupTs.drop 3
    ∧ process_runs fmtW [runW1] [] hdrsDupTs "alice" =
        .ok [[("Name", NProp.title "r1"), ("User", NProp.richText "alice")]]
    ∧ get_run_value runW1 "Timestamp" = ""
    ∧ lookupKey [("Name", NProp.title "r1"), ("User", NProp.richText "alice")]
        "Timestamp" = none :=
  ⟨by decide, rfl, rfl, rfl⟩

/-- C6 as amended: for every included run and every header beyond the first
three whose name is none of "Run ID", "Timestamp" and "Name" (names that the
code special-cases by content or that collide with the title key), the built
property set holds a plain-text property under that header — present even
when the value is the empty string — whose content is the header's resolved
value: the stringified config value when the key is in config, else the
stringified summary value when it is in summary, else the empty string, with
any exception during either lookup also yielding the empty string. -/
theorem c6_header_value_resolution_amended (fmt : Int → String) (run : Run)
    (H : List String) (h : String) (page : NotionPage)
    (hb : buildPage fmt run H = .ok page)
    (hmem : h ∈ H.drop 3) (hr : h ≠ "Run ID") (ht : h ≠ "Timestamp")
    (hn : h ≠ "Name") :
    lookupKey page h = some (NProp.richText (get_run_value run h))
    ∧ (∀ v, lookupKey run.config h = some (.ok v) →
        get_run_value run h = pyStr v)
    ∧ (∀ er, lookupKey run.config h = some (.error er) →
        get_run_value run h = "")
    ∧ (lookupKey run.config h = none → ∀ v,
        lookupKey run.summary h = some (.ok v) → get_run_value run h = pyStr v)
    ∧ (lookupKey run.config h = none → ∀ er,
        lookupKey run.summary h = some (.error er) → get_run_value run h = "")
    ∧ (lookupKey run.config h = none → lookupKey run.summary h = none →
        get_run_value run h = "") := by
  refine ⟨?_, ?_, ?_, ?_, ?_, ?_⟩
  · cases H with
    | nil => simp at hmem
    | cons h0 t0 =>
      cases t0 with
      | nil => simp at hmem
      | cons h1 t1 =>
        cases t1 with
        | nil => simp at hmem
        | cons h2 hs =>
          have hmem' : h ∈ hs := by simpa using hmem
          cases hi : run.idAgain with
          | error e => simp [buildPage, hi] at hb
          | ok i =>
            cases hu : run.userNameAgain with
            | error e => simp [buildPage, hi, hu] at hb
            | ok un =>
              simp only [buildPage, hi, hu, Except.ok.injEq] at hb
              subst hb
              simp only [create_notion_properties, List.drop_succ_cons,
                List.drop_zero, List.zip_cons_cons,
                zip_map_self hs (get_run_value run)]
              have hsuffix :
                  lastRich h (hs.map fun k => (k, get_run_value run k)) =
                    some (get_run_value run h) := by
                rw [lastRich_map_self]
                simp [hmem']
              refine cnp_lookupKey_last_some h _ _ [] hr ht hn ?_
              simp [lastRich, hsuffix]
  · intro v hv
    simp [get_run_value, hv]
  · intro er her
    simp [get_run_value, her]
  · intro hc v hv
    simp [get_run_value, hc, hv]
  · intro hc er her
    simp [get_run_value, hc, her]
  · intro hc hsm
    simp [get_run_value, hc, hsm]

/-- Witness for C6 as amended: the user-defined header lr of runCfgW is set
as a rich-text property with the stringified config value. -/
theorem c6_header_value_resolution_amended_witness :
    lookupKey (pageOf fmtW runCfgW HW4) "lr" =
      some (NProp.richText (get_run_value runCfgW "lr"))
    ∧ (∀ v, lookupKey runCfgW.config "lr" = some (.ok v) →
        get_run_value runCfgW "lr" = pyStr v)
    ∧ (∀ er, lookupKey runCfgW.config "lr" = some (.error er) →
        get_run_value runCfgW "lr" = "")
    ∧ (lookupKey runCfgW.config "lr" = none → ∀ v,
        lookupKey runCfgW.summary "lr" = some (.ok v) →
        get_run_value runCfgW "lr" = pyStr v)
    ∧ (lookupKey runCfgW.config "lr" = none → ∀ er,
        lookupKey runCfgW.summary "lr" = some (.error er) →
        get_run_value runCfgW "lr" = "")
    ∧ (lookupKey runCfgW.config "lr" = none →
        lookupKey runCfgW.summary "lr" = none →
        get_run_value runCfgW "lr" = "") :=
  c6_header_value_resolution_amended fmtW runCfgW HW4 "lr"
    (pageOf fmtW runCfgW HW4) rfl (by decide) (by decide) (by decide) (by decide)

/-- C7: with the canonical headers (position 1 named "Timestamp", no later
header of that name), the mapped timestamp value is fmt applied to a numeric
summary _timestamp and the empty string when the field is absent or its
conversion fails; the "Timestamp" property of the built row is a date set
exactly when that value is non-empty and is omitted from the row
otherwise. -/
theorem c7_timestamp_mapping (fmt : Int → String) (run : Run) (h0 : String)
    (hs : List String) (page : NotionPage)
    (h0t : h0 ≠ "Timestamp") (hst : "Timestamp" ∉ hs)
    (hb : buildPage fmt run (h0 :: "Timestamp" :: hs) = .ok page) :
    (∀ n : Int, lookupKey run.summary "_timestamp" = some (.ok (.num n)) →
        get_timestamp fmt run = fmt n)
    ∧ (lookupKey run.summary "_timestamp" = none → get_timestamp fmt run = "")
    ∧ (∀ s, lookupKey run.summary "_timestamp" = some (.ok (.str s)) →
        get_timestamp fmt run = "")
    ∧ (∀ er, lookupKey run.summary "_timestamp" = some (.error er) →
        get_timestamp fmt run = "")
    ∧ (get_timestamp fmt run ≠ "" →
        lookupKey page "Timestamp" = some (NProp.date (get_timestamp fmt run)))
    ∧ (get_timestamp fmt run = "" → lookupKey page "Timestamp" = none) := by
  cases hi : run.idAgain with
  | error e => simp [buildPage, hi] at hb
  | ok i =>
    cases hu : run.userNameAgain with
    | error e => simp [buildPage, hi, hu] at hb
    | ok un =>
      simp only [buildPage, hi, hu, Except.ok.injEq] at hb
      subst hb
      have hK : ∀ p ∈ hs.zip (un :: (hs.drop 1).map (get_run_value run)),
          p.1 ≠ "Timestamp" := by
        intro p hp hh
        have hmem := (List.of_mem_zip hp).1
        rw [hh] at hmem
        exact hst hmem
      have hN : ("Timestamp" : String) = "Name" →
          ∀ p ∈ hs.zip (un :: (hs.drop 1).map (get_run_value run)),
            p.1 ≠ "Run ID" := by
        intro hh
        exact absurd hh (by decide)
      have hc1 : (("Timestamp" : String) == "Run ID") = false := by decide
      have hc2 : (("Timestamp" : String) == "Timestamp") = true := by decide
      have hzip : List.zipWith (Prod.mk : String → String → String × String)
          hs (un :: (hs.drop 1).map (get_run_value run)) =
          hs.zip (un :: (hs.drop 1).map (get_run_value run)) := rfl
      refine ⟨?_, ?_, ?_, ?_, ?_, ?_⟩
      · intro n hn
        simp [get_timestamp, hn]
      · intro hn
        simp [get_timestamp, hn]
      · intro s hn
        simp [get_timestamp, hn]
      · intro er her
        simp [get_timestamp, her]
      · intro hts
        have htsb : (get_timestamp fmt run == "") = false := by simpa using hts
        simp only [create_notion_properties, List.drop_succ_cons,
          List.drop_zero, List.zip_cons_cons, cnpGo, hc1, hc2, htsb,
          Bool.false_eq_true, if_false, if_true]
        rw [hzip]
        by_cases h0r : h0 = "Run ID"
        · have h0rb : (h0 == "Run ID") = true := by simpa using h0r
          simp only [h0rb, if_true]
          rw [cnp_lookupKey_skip "Timestamp" _ _ hK hN, lookupKey_dictInsert_self]
        · have h0rb : (h0 == "Run ID") = false := by simpa using h0r
          have h0tb : (h0 == "Timestamp") = false := by simpa using h0t
          simp only [h0rb, h0tb, Bool.false_eq_true, if_false]
          rw [cnp_lookupKey_skip "Timestamp" _ _ hK hN, lookupKey_dictInsert_self]
      · intro hts
        have htsb : (get_timestamp fmt run == "") = true := by simpa using hts
        simp only [create_notion_properties, List.drop_succ_cons,
          List.drop_zero, List.zip_cons_cons, cnpGo, hc1, hc2, htsb,
          Bool.false_eq_true, if_false, if_true]
        have hts' : (("Timestamp" : String) == "Name") = false := by decide
        rw [hzip]
        by_cases h0r : h0 = "Run ID"
        · have h0rb : (h0 == "Run ID") = true := by simpa using h0r
          simp only [h0rb, if_true]
          rw [cnp_lookupKey_skip "Timestamp" _ _ hK hN]
          simp [dictInsert, lookupKey, hts']
        · have h0rb : (h0 == "Run ID") = false := by simpa using h0r
          have h0tb : (h0 == "Timestamp") = false := by simpa using h0t
          have h0tb' : (("Timestamp" : String) == h0) = false := by
            simpa using fun hh => h0t hh.symm
          simp only [h0rb, h0tb, Bool.false_eq_true, if_false]
          rw [cnp_lookupKey_skip "Timestamp" _ _ hK hN]
          simp [dictInsert, lookupKey, h0tb']

/-- Witness for C7: runTsW has summary _timestamp 0, so its mapped value is
fmtW 0 and the built row carries the date property; the implications are
applied at that concrete run. -/
theorem c7_timestamp_mapping_witness :
    (∀ n : Int, lookupKey runTsW.summary "_timestamp" = some (.ok (.num n)) →
        get_timestamp fmtW runTsW = fmtW n)
    ∧ (lookupKey runTsW.summary "_timestamp" = none →
        get_timestamp fmtW runTsW = "")
    ∧ (∀ s, lookupKey runTsW.summary "_timestamp" = some (.ok (.str s)) →
        get_timestamp fmtW runTsW = "")
    ∧ (∀ er, lookupKey runTsW.summary "_timestamp" = some (.error er) →
        get_timestamp fmtW runTsW = "")
    ∧ (get_timestamp fmtW runTsW ≠ "" →
        lookupKey (pageOf fmtW runTsW ("Run ID" :: "Timestamp" :: ["User"]))
          "Timestamp" = some (NProp.date (get_timestamp fmtW runTsW)))
    ∧ (get_timestamp fmtW runTsW = "" →
        lookupKey (pageOf fmtW runTsW ("Run ID" :: "Timestamp" :: ["User"]))
          "Timestamp" = none) :=
  c7_timestamp_mapping fmtW runTsW "Run ID" ["User"]
    (pageOf fmtW runTsW ("Run ID" :: "Timestamp" :: ["User"]))
    (by decide) (by decide) rfl

theorem get_existing_run_ids_ok (db : List DestPage) (E : List String)
    (h : get_existing_run_ids (.ok db) = .ok E) : extract_ids db = .ok E := by
  cases hx : extract_ids db with
  | ok ids =>
    simp only [get_existing_run_ids, hx, Except.ok.injEq] at h
    rw [h]
  | error e => simp [get_existing_run_ids, hx] at h

theorem titleHead_pageToDest_pageOf (fmt : Int → String) (r : Run)
    (hs : List String) (h1 : "Run ID" ∉ hs) (h2 : "Name" ∉ hs) :
    titleHead (pageToDest (pageOf fmt r ("Run ID" :: hs))) =
      some (exVal r.idAgain) := by
  simp [pageToDest, titleHead, pageOf_lookupKey_name fmt r hs h1 h2]

theorem countTitle_newpages (fmt : Int → String) (qruns : List Run)
    (hs : List String) (t : String) (h1 : "Run ID" ∉ hs) (h2 : "Name" ∉ hs) :
    countTitle ((qruns.map (fun r => pageOf fmt r ("Run ID" :: hs))).map
        pageToDest) t =
      (qruns.filter (fun r => exVal r.idAgain == t)).length := by
  induction qruns with
  | nil => simp [countTitle]
  | cons r rest ih =>
    simp only [List.map_cons, countTitle, List.filter_cons] at ih ⊢
    rw [List.map_map] at ih
    rw [titleHead_pageToDest_pageOf fmt r hs h1 h2]
    by_cases hbt : exVal r.idAgain = t
    · simp only [hbt, beq_self_eq_true, if_true]
      simp [ih]
    · have hb1 : (exVal r.idAgain == t) = false := by simpa using hbt
      have hb2 : ((some (exVal r.idAgain) : Option String) == some t) = false := by
        simpa using hbt
      simp [hb1, hb2, ih]

theorem length_filter_le_one_of_nodup (l : List Run) (f : Run → String)
    (t : String) (hnd : (l.map f).Nodup) :
    (l.filter (fun r => f r == t)).length ≤ 1 := by
  induction l with
  | nil => simp
  | cons r rest ih =>
    simp only [List.map_cons, List.nodup_cons] at hnd
    obtain ⟨hnotin, hnd'⟩ := hnd
    simp only [List.filter_cons]
    by_cases hf : (f r == t) = true
    · have hfr : f r = t := by simpa using hf
      have hrest : rest.filter (fun q => f q == t) = [] := by
        rw [List.filter_eq_nil_iff]
        intro q hq hqt
        have hqet : f q = t := by simpa using hqt
        have hmm : f q ∈ rest.map f := List.mem_map_of_mem f hq
        rw [hqet, ← hfr] at hmm
        exact hnotin hmm
      simp [hf, hrest]
    · have hf' : (f r == t) = false := by simpa using hf
      simp [hf', ih hnd']

theorem countTitle_eq_zero_of_notin (db : List DestPage) (E : List String)
    (t : String) (hx : extract_ids db = .ok E) (ht : t ∉ E) :
    countTitle db t = 0 := by
  rw [countTitle, List.length_eq_zero, List.filter_eq_nil_iff]
  intro d hd hc
  have hth : titleHead d = some t := by simpa using hc
  cases hn : d.nameProp with
  | none => simp [titleHead, hn] at hth
  | some l =>
    cases l with
    | nil => simp [titleHead, hn] at hth
    | cons a ts =>
      have ha : a = t := by simpa [titleHead, hn] using hth
      subst ha
      exact ht (extract_ids_mem db E hx d hd a ts hn)

/-- C1: with the existing-id list read from the destination, a run whose id
is in that list never qualifies and so is never mapped; a repeat tick in
which every finished, target-owned run's id is already listed yields an
empty page list and a tick that creates nothing and raises nothing; and a
successful tick (all creates succeed) whose fetched qualifying runs have
pairwise distinct ids preserves the at-most-one-row-per-identifier
invariant of the destination. -/
theorem c1_idempotent_dedup (fmt : Int → String)
    (create : NotionPage → Option String) (db : List DestPage)
    (runs : List Run) (H : List String) (u : String) (E : List String)
    (hq : get_existing_run_ids (.ok db) = .ok E)
    (hclean : ∀ r ∈ runs, cleanRun r = true) :
    (process_runs fmt runs E H u =
        .ok ((runs.filter (fun r => qualifies r E u)).map (fun r => pageOf fmt r H))
      ∧ ∀ r ∈ runs, E.contains (exVal r.id) = true → qualifies r E u = false)
    ∧ ((∀ r ∈ runs, exVal r.state = "finished" → exVal r.userName = u →
          E.contains (exVal r.id) = true) →
        process_runs fmt runs E H u = .ok []
        ∧ main_tick fmt create (.ok db) runs H u = ⟨[], none⟩)
    ∧ (∀ hs : List String, H = "Run ID" :: hs → "Run ID" ∉ hs → "Name" ∉ hs →
        (∀ r ∈ runs, r.idAgain = r.id) →
        ((runs.filter (fun r => qualifies r E u)).map (fun r => exVal r.id)).Nodup →
        (∀ p, create p = none) →
        atMostOnePerTitle db →
        atMostOnePerTitle (db ++
          ((main_tick fmt create (.ok db) runs H u).created).map pageToDest)) := by
  have hpr := process_runs_clean fmt runs E H u hclean
  refine ⟨⟨hpr, ?_⟩, ?_, ?_⟩
  · intro r hr hcont
    have hmem : exVal r.id ∈ E := by simpa using hcont
    simp [qualifies, hmem]
  · intro hrep
    have hfilter : runs.filter (fun r => qualifies r E u) = [] := by
      rw [List.filter_eq_nil_iff]
      intro r hr hqr
      simp only [qualifies, Bool.and_eq_true, beq_iff_eq,
        Bool.not_eq_true'] at hqr
      obtain ⟨⟨hst, hnc⟩, hun⟩ := hqr
      rw [hrep r hr hst hun] at hnc
      exact absurd hnc (by simp)
    have hempty : process_runs fmt runs E H u = .ok [] := by
      rw [hpr, hfilter]
      simp
    refine ⟨hempty, ?_⟩
    simp [main_tick, hq, hempty]
  · intro hs hH h1 h2 hagain hnodup hcr hdb
    subst hH
    have hcreated : (main_tick fmt create (.ok db) runs ("Run ID" :: hs) u).created =
        (runs.filter (fun r => qualifies r E u)).map
          (fun r => pageOf fmt r ("Run ID" :: hs)) := by
      by_cases hpe : (runs.filter (fun r => qualifies r E u)).map
          (fun r => pageOf fmt r ("Run ID" :: hs)) = []
      · simp [main_tick, hq, hpr, hpe]
      · simp [main_tick, hq, hpr, hpe,
          sync_data_all_ok create _ (fun p _ => hcr p)]
    rw [hcreated]
    intro t
    rw [countTitle_append]
    have hnew := countTitle_newpages fmt (runs.filter (fun r => qualifies r E u))
      hs t h1 h2
    have hfc : (runs.filter (fun r => qualifies r E u)).filter
          (fun r => exVal r.idAgain == t) =
        (runs.filter (fun r => qualifies r E u)).filter
          (fun r => exVal r.id == t) := by
      apply List.filter_congr
      intro r hr
      rw [hagain r (List.mem_of_mem_filter hr)]
    rw [hnew, hfc]
    cases hqf : (runs.filter (fun r => qualifies r E u)).filter
        (fun r => exVal r.id == t) with
    | nil =>
      have := hdb t
      simpa using this
    | cons r0 rest0 =>
      have hr0 : r0 ∈ (runs.filter (fun r => qualifies r E u)).filter
          (fun r => exVal r.id == t) := by
        rw [hqf]
        simp
      have hr0q : r0 ∈ runs.filter (fun r => qualifies r E u) :=
        List.mem_of_mem_filter hr0
      have hr0t : exVal r0.id = t := by
        have := (List.mem_filter.mp hr0).2
        simpa using this
      have hr0qual : qualifies r0 E u = true := by
        have := (List.mem_filter.mp hr0q).2
        simpa using this
      have hcontf : E.contains (exVal r0.id) = false := by
        simp only [qualifies, Bool.and_eq_true, Bool.not_eq_true'] at hr0qual
        exact hr0qual.1.2
      have htE : t ∉ E := by
        rw [← hr0t]
        simpa using hcontf
      have hdb0 : countTitle db t = 0 :=
        countTitle_eq_zero_of_notin db E t (get_existing_run_ids_ok db E hq) htE
      have hle := length_filter_le_one_of_nodup
        (runs.filter (fun r => qualifies r E u)) (fun r => exVal r.id) t hnodup
      rw [hqf] at hle
      rw [hdb0]
      simpa using hle

/-- Witness for C1: with one destination row titled r0 and a fetched batch
whose only finished alice run has id r0, the repeat tick produces an empty
page list and creates nothing. -/
theorem c1_idempotent_dedup_witness :
    process_runs fmtW [runW6, runW4] ["r0"] HW "alice" = .ok []
    ∧ main_tick fmtW createOkW (.ok dbW1) [runW6, runW4] HW "alice" =
        ⟨[], none⟩ :=
  (c1_idempotent_dedup fmtW createOkW dbW1 [runW6, runW4] HW "alice" ["r0"]
    rfl (by decide)).2.1 (by decide)
